import Mathlib

/-!
Verification of the Trado backtesting engine (services/backtestService.ts)
against its specification.

The embedding below is a shallow translation of the TypeScript source:

* Prices are exact rationals (`ℚ`).  The JavaScript expressions
  `(a - b) / b * 100` may produce `Infinity` or `NaN` when `b = 0`; this is
  modelled by the four-constructor type `JsNum` together with `jsDiv`,
  `jsMul100` and the comparison helpers `JsNum.jsGe` / `JsNum.jsLe`, which
  reproduce IEEE comparison behaviour for those special values
  (every comparison against `NaN` is false, `+Infinity` is above every
  threshold, `-Infinity` below every threshold).
* Timestamps are natural numbers.  The source builds the event clock by
  collecting `received_at.toISOString()` strings into a `Set` and sorting
  them; for uniformly formatted ISO strings lexicographic order coincides
  with chronological order, so the model sorts and deduplicates naturals
  (`sortedTimes`).
* The in-place mutation of `Position` objects is modelled by indexing:
  the source captures the first active CE / PE position before the exit
  checks of an event and keeps mutating those same objects; the model
  captures the corresponding list index (`firstActiveIdx`) and updates the
  list at that index (`List.set`), which reproduces the aliasing (an
  object already closed by the combined check is still reachable by the
  individual stop-loss check of the same event).
* Data-provider calls (`DataService`) are I/O; each simulated day receives
  its provider data up front in a `DayInput` record, and the runner takes a
  list of `DayInput` instead of a list of dates.
* Fields of `OptionData` that the simulator never reads (`id`, `topic`) are
  omitted.
* The strategy constants live in src/config/constants.ts, which is not part
  of the sources; `defaultCfg` carries the documented default values
  (individual SL 25, combined target 25, combined SL 10, BANKNIFTY lot
  size 30).  All theorems are stated for an arbitrary configuration
  wherever possible.
-/

namespace Trado

/-- Model of a JavaScript number that can be finite, infinite or NaN. -/
inductive JsNum where
  | fin (q : ℚ)
  | posInf
  | negInf
  | nan
deriving DecidableEq, Repr

/-- JavaScript division on exact operands: `a / b` is the rational quotient
when `b ≠ 0`, and otherwise `Infinity`, `-Infinity` or `NaN` depending on
the sign of `a`. -/
def jsDiv (a b : ℚ) : JsNum :=
  if b ≠ 0 then .fin (a / b)
  else if 0 < a then .posInf
  else if a < 0 then .negInf
  else .nan

/-- Multiplication of a JavaScript number by the positive constant 100,
as used in the percentage computations. -/
def jsMul100 : JsNum → JsNum
  | .fin q => .fin (q * 100)
  | x => x

/-- The percentage-change expression of the source,
`(cur - entry) / entry * 100`, with JavaScript division semantics. -/
def jsPct (entry cur : ℚ) : JsNum :=
  jsMul100 (jsDiv (cur - entry) entry)

/-- JavaScript comparison `x >= c`: true for `+Infinity`, false for
`-Infinity` and `NaN`. -/
def JsNum.jsGe : JsNum → ℚ → Bool
  | .fin q, c => decide (c ≤ q)
  | .posInf, _ => true
  | .negInf, _ => false
  | .nan, _ => false

/-- JavaScript comparison `x <= c`: true for `-Infinity`, false for
`+Infinity` and `NaN`. -/
def JsNum.jsLe : JsNum → ℚ → Bool
  | .fin q, c => decide (q ≤ c)
  | .posInf, _ => false
  | .negInf, _ => true
  | .nan, _ => false

/-- Option leg kind, `"CE"` or `"PE"` in the source. -/
inductive OptionType where
  | CE
  | PE
deriving DecidableEq, Repr

/-- Exit reasons recorded by the simulator (the string literals of the
source: TOTAL_PL_TARGET, TOTAL_PL_SL, SL, EOD). -/
inductive ExitReason where
  | TOTAL_PL_TARGET
  | TOTAL_PL_SL
  | SL
  | EOD
deriving DecidableEq, Repr

/-- One tick of an option price time series (models/types OptionData
restricted to the fields the simulator reads). -/
structure OptionData where
  ltp : ℚ
  received_at : ℕ
deriving DecidableEq, Repr

/-- One option leg held during a day (models/types Position). -/
structure Position where
  type : OptionType
  entryPrice : ℚ
  entryTime : ℕ
  isActive : Bool
  strikePrice : ℚ
  exitPrice : Option ℚ := none
  exitTime : Option ℕ := none
  exitReason : Option ExitReason := none
  pnl : Option ℚ := none
deriving DecidableEq, Repr

/-- A freshly opened position, as constructed at entry and at adjustment. -/
def mkPosition (ty : OptionType) (entry : ℚ) (time : ℕ) (strike : ℚ) : Position :=
  { type := ty
    entryPrice := entry
    entryTime := time
    isActive := true
    strikePrice := strike }

/-- Strategy configuration (src/config/constants.ts together with the lot
size looked up from TopicService.getLotSize). -/
structure SimConfig where
  slPercent : ℚ
  pnlTargetPercent : ℚ
  pnlSlPercent : ℚ
  lotSize : ℚ
deriving DecidableEq, Repr

/-- Modelled from the spec: src/config/constants.ts is not among the
sources; these are the documented defaults (individual stop-loss 25,
combined target 25, combined stop-loss 10) and the BANKNIFTY lot size 30
from TopicService.getLotSize. -/
def defaultCfg : SimConfig :=
  { slPercent := 25
    pnlTargetPercent := 25
    pnlSlPercent := 10
    lotSize := 30 }

/-- The exitPosition helper of BacktestService: records exit price, exit
time and reason and clears the active flag.  Each call overwrites any
previously recorded exit data, exactly like the mutation in the source. -/
def exitPosition (p : Position) (price : ℚ) (time : ℕ) (reason : ExitReason) : Position :=
  { p with
    exitPrice := some price
    exitTime := some time
    isActive := false
    exitReason := some reason }

/-- Index of the first active position of the given leg kind
(positions.find with the predicate type-and-isActive of the source,
returning the index so that later in-place mutation can be modelled). -/
def firstActiveIdx (ty : OptionType) : List Position → Option ℕ
  | [] => none
  | p :: ps =>
    if p.type = ty ∧ p.isActive = true then some 0
    else (firstActiveIdx ty ps).map (· + 1)

/-- The tick of a series at an exact timestamp
(timeSeries.find on received_at equality). -/
def tickAt (t : ℕ) : List OptionData → Option OptionData
  | [] => none
  | d :: ds => if d.received_at = t then some d else tickAt t ds

/-- The last element of a tick series (ts[ts.length - 1] in the source). -/
def lastTick : List OptionData → Option OptionData
  | [] => none
  | [d] => some d
  | _ :: d :: ds => lastTick (d :: ds)

/-- Insertion into a sorted duplicate-free list of timestamps. -/
def insertTime (t : ℕ) : List ℕ → List ℕ
  | [] => [t]
  | x :: xs =>
    if t < x then t :: x :: xs
    else if t = x then x :: xs
    else x :: insertTime t xs

/-- The sorted, deduplicated union of the two series' timestamps: the event
clock, built in the source as Array.from(new Set(...)).sort() over ISO
strings, whose lexicographic order is chronological order. -/
def sortedTimes (ceTS peTS : List OptionData) : List ℕ :=
  ((ceTS ++ peTS).map OptionData.received_at).foldr insertTime []

/-- Replacement of the element at a captured index by its closed state;
the Option argument is the list element found at that index. -/
def closeGot (t : ℕ) (r : ExitReason) (i : ℕ) (d : OptionData) (ps : List Position) :
    Option Position → List Position
  | some p => ps.set i (exitPosition p d.ltp t r)
  | none => ps

/-- Closing of the position at the captured index, provided both the index
and the tick data are present (if (leg && legData) exitPosition(...)). -/
def closeAt (t : ℕ) (r : ExitReason) : Option ℕ → Option OptionData →
    List Position → List Position
  | some i, some d, ps => closeGot t r i d ps (ps.get? i)
  | _, _, ps => ps

/-- The individual stop-loss condition of one leg: defined only when the
captured position and the tick at this timestamp are both present, using
the entry price of the position captured before the combined checks. -/
def indivFire (sl : ℚ) : Option Position → Option OptionData → Bool
  | some cp, some d => (jsPct cp.entryPrice d.ltp).jsLe (-sl)
  | _, _ => false

/-- The exit section of one event iteration: combined target, else combined
stop-loss, then the two individual stop-loss checks.  The positions used
for entry prices are captured once at the start, so the individual check
still fires on a leg the combined check closed in the same event. -/
def exitsPhase (cfg : SimConfig) (ceData peData : Option OptionData) (t : ℕ)
    (ps : List Position) : List Position :=
  let ceIdx := firstActiveIdx .CE ps
  let peIdx := firstActiveIdx .PE ps
  let ce := ceIdx.bind fun i => ps.get? i
  let pe := peIdx.bind fun i => ps.get? i
  let totalEntry := (ce.map Position.entryPrice).getD 0 + (pe.map Position.entryPrice).getD 0
  let currentTotal := (ceData.map OptionData.ltp).getD 0 + (peData.map OptionData.ltp).getD 0
  let totalChange := jsPct totalEntry currentTotal
  let ps1 :=
    if totalChange.jsGe cfg.pnlTargetPercent = true then
      closeAt t .TOTAL_PL_TARGET peIdx peData (closeAt t .TOTAL_PL_TARGET ceIdx ceData ps)
    else if totalChange.jsLe (-cfg.pnlSlPercent) = true then
      closeAt t .TOTAL_PL_SL peIdx peData (closeAt t .TOTAL_PL_SL ceIdx ceData ps)
    else ps
  let ps2 :=
    if indivFire cfg.slPercent ce ceData = true then closeAt t .SL ceIdx ceData ps1 else ps1
  if indivFire cfg.slPercent pe peData = true then closeAt t .SL peIdx peData ps2 else ps2

/-- Event-loop state: the day's position list, the madeAdjustment field of
the TradeDay and the loop-local adjustmentDone flag. -/
structure LoopState where
  positions : List Position
  madeAdjustment : Bool
  adjustmentDone : Bool
deriving DecidableEq, Repr

/-- Opening of the adjustment pair: appended only when both legs have a
tick at the qualifying timestamp, otherwise the list is unchanged (the
source logs a warning and continues). -/
def pushPair (atm : ℚ) (t : ℕ) (ps : List Position) :
    Option OptionData → Option OptionData → List Position
  | some cd, some pd => ps ++ [mkPosition .CE cd.ltp t atm, mkPosition .PE pd.ltp t atm]
  | _, _ => ps

/-- The adjustment section of one event iteration: only when no adjustment
has been made and the event is strictly before the cutoff, and all
positions are inactive, the adjustment slot is consumed; a new CE/PE pair
is opened only when both legs have a tick at this timestamp. -/
def adjustPhase (atm : ℚ) (adjCutoff : ℕ) (ceData peData : Option OptionData) (t : ℕ)
    (made adjDone : Bool) (ps : List Position) : LoopState :=
  if adjDone = false ∧ t < adjCutoff then
    if ps.all (fun p => !p.isActive) = true then
      { positions := pushPair atm t ps ceData peData
        madeAdjustment := true
        adjustmentDone := true }
    else { positions := ps, madeAdjustment := made, adjustmentDone := adjDone }
  else { positions := ps, madeAdjustment := made, adjustmentDone := adjDone }

/-- One iteration of the event loop body (after the break test). -/
def stepEvent (cfg : SimConfig) (adjCutoff : ℕ) (atm : ℚ)
    (ceTS peTS : List OptionData) (t : ℕ) (st : LoopState) : LoopState :=
  let ceData := tickAt t ceTS
  let peData := tickAt t peTS
  adjustPhase atm adjCutoff ceData peData t st.madeAdjustment st.adjustmentDone
    (exitsPhase cfg ceData peData t st.positions)

/-- Whether some active position of the given kind exists (the truthiness
test on positions.find used by the break condition). -/
def hasActive (ty : OptionType) (ps : List Position) : Bool :=
  ps.any (fun p => decide (p.type = ty) && p.isActive)

/-- The event loop over the sorted timestamps, stopping early when no open
positions remain (if (!ce && !pe) break). -/
def processLoop (cfg : SimConfig) (adjCutoff : ℕ) (atm : ℚ)
    (ceTS peTS : List OptionData) : List ℕ → LoopState → LoopState
  | [], st => st
  | t :: rest, st =>
    if hasActive .CE st.positions = false ∧ hasActive .PE st.positions = false then st
    else processLoop cfg adjCutoff atm ceTS peTS rest (stepEvent cfg adjCutoff atm ceTS peTS t st)

/-- Force-close of one position given the last tick of its leg (no change
when the series is empty). -/
def eodFix (p : Position) : Option OptionData → Position
  | none => p
  | some d => exitPosition p d.ltp d.received_at .EOD

/-- The end-of-day pass: every still-active position is closed at the last
tick of its leg's series with reason EOD; a leg with an empty series is
left untouched (data-integrity warning in the source). -/
def eodClose (ceTS peTS : List OptionData) (ps : List Position) : List Position :=
  ps.map fun p =>
    if p.isActive = true then
      eodFix p (lastTick (if p.type = OptionType.CE then ceTS else peTS))
    else p

/-- processOptionPrices of BacktestService: the event loop over the merged
timestamps followed by the end-of-day pass. -/
def processOptionPrices (cfg : SimConfig) (adjCutoff : ℕ) (atm : ℚ)
    (ceTS peTS : List OptionData) (init : List Position) : LoopState :=
  let st := processLoop cfg adjCutoff atm ceTS peTS (sortedTimes ceTS peTS)
    { positions := init, madeAdjustment := false, adjustmentDone := false }
  { st with positions := eodClose ceTS peTS st.positions }

/-- One step of the P&L fold: a position with a resolved exit price gets
its pnl recorded and added to the running total, any other position is
passed through. -/
def pnlCons (lot : ℚ) (p : Position) (rest : List Position × ℚ) :
    Option ℚ → List Position × ℚ
  | some ex =>
    ({ p with pnl := some ((ex - p.entryPrice) * lot) } :: rest.1,
      (ex - p.entryPrice) * lot + rest.2)
  | none => (p :: rest.1, rest.2)

/-- calculateDayPnL of BacktestService: for each position with a resolved
exit price, record pnl = (exit - entry) * lotSize and accumulate the day
total.  Returns the updated positions and the total. -/
def calculateDayPnL (lot : ℚ) : List Position → List Position × ℚ
  | [] => ([], 0)
  | p :: ps => pnlCons lot p (calculateDayPnL lot ps) p.exitPrice

/-- One simulated trading day (models/types TradeDay; the date string is
abstracted away, timestamps are naturals). -/
structure TradeDay where
  atmStrike : ℚ
  positions : List Position
  totalPnl : ℚ
  madeAdjustment : Bool
  dayPnlPercent : JsNum
deriving DecidableEq, Repr

/-- The provider data consumed by one day of simulation: the ATM strike
(none when the provider has no data), the two entry prices, the entry
timestamp, the two tick series, and the adjustment-cutoff timestamp of
that day. -/
structure DayInput where
  atmStrike : Option ℚ
  cePrice : ℚ
  pePrice : ℚ
  entryTime : ℕ
  ceSeries : List OptionData
  peSeries : List OptionData
  adjCutoff : ℕ
deriving DecidableEq, Repr

/-- Simulation of one day given the resolved ATM strike option: a missing
strike gives the empty zero-P&L day; otherwise the two entry positions are
opened, the event loop runs, and the day P&L and percentage are derived,
the percentage denominator being the original entry prices. -/
def dayFromStrike (cfg : SimConfig) (inp : DayInput) : Option ℚ → TradeDay
  | none =>
    { atmStrike := 0
      positions := []
      totalPnl := 0
      madeAdjustment := false
      dayPnlPercent := .fin 0 }
  | some strike =>
    let initPositions :=
      [mkPosition .CE inp.cePrice inp.entryTime strike,
       mkPosition .PE inp.pePrice inp.entryTime strike]
    let st := processOptionPrices cfg inp.adjCutoff strike inp.ceSeries inp.peSeries initPositions
    let res := calculateDayPnL cfg.lotSize st.positions
    { atmStrike := strike
      positions := res.1
      totalPnl := res.2
      madeAdjustment := st.madeAdjustment
      dayPnlPercent := jsMul100 (jsDiv res.2 ((inp.cePrice + inp.pePrice) * cfg.lotSize)) }

/-- processTradingDay of BacktestService, dispatching on the provider
result for the ATM strike. -/
def processTradingDay (cfg : SimConfig) (inp : DayInput) : TradeDay :=
  dayFromStrike cfg inp inp.atmStrike

/-- Aggregate result of a backtest run (models/types BacktestResult). -/
structure BacktestResult where
  days : List TradeDay
  totalPnl : ℚ
  winningDays : ℕ
  losingDays : ℕ
  winRate : JsNum
  averageDailyPnl : JsNum
deriving DecidableEq, Repr

/-- The per-day accumulation step of runBacktest: append the day, add its
P&L, and count it as winning when totalPnl is at least zero, losing
otherwise. -/
def runStep (cfg : SimConfig) (acc : BacktestResult) (inp : DayInput) : BacktestResult :=
  let td := processTradingDay cfg inp
  { acc with
    days := acc.days ++ [td]
    totalPnl := acc.totalPnl + td.totalPnl
    winningDays := if 0 ≤ td.totalPnl then acc.winningDays + 1 else acc.winningDays
    losingDays := if 0 ≤ td.totalPnl then acc.losingDays else acc.losingDays + 1 }

/-- The initial BacktestResult object of runBacktest. -/
def emptyResult : BacktestResult :=
  { days := []
    totalPnl := 0
    winningDays := 0
    losingDays := 0
    winRate := .fin 0
    averageDailyPnl := .fin 0 }

/-- runBacktest of BacktestService: fold the days, then derive
winRate = winningDays / numDays * 100 and averageDailyPnl =
totalPnl / numDays with JavaScript division (0 / 0 is NaN). -/
def runBacktest (cfg : SimConfig) (inputs : List DayInput) : BacktestResult :=
  let r := inputs.foldl (runStep cfg) emptyResult
  let n : ℚ := (r.days.length : ℚ)
  { r with
    winRate := jsMul100 (jsDiv (r.winningDays : ℚ) n)
    averageDailyPnl := jsDiv r.totalPnl n }

/-! Concrete provider inputs used by counterexamples and witnesses. -/

/-- Day on which the combined stop-loss and the CE individual stop-loss are
simultaneously true at the single event t = 1:
entries 100/100, CE tick 70 (individual change -30), PE tick 100
(combined change -15). -/
def c1Input : DayInput :=
  { atmStrike := some 100
    cePrice := 100
    pePrice := 100
    entryTime := 0
    ceSeries := [⟨70, 1⟩]
    peSeries := [⟨100, 1⟩]
    adjCutoff := 0 }

/-- Day on which both original legs exit at t = 1 (combined stop-loss),
an adjustment pair opens at t = 1 (prices 60/60), and the adjustment pair
itself hits the combined/individual stop-loss at t = 2 while the last
available tick is at t = 3. -/
def c2Input : DayInput :=
  { atmStrike := some 100
    cePrice := 100
    pePrice := 100
    entryTime := 0
    ceSeries := [⟨60, 1⟩, ⟨40, 2⟩, ⟨40, 3⟩]
    peSeries := [⟨60, 1⟩, ⟨40, 2⟩, ⟨40, 3⟩]
    adjCutoff := 10 }

/-- Day whose entry prices are both 0 (the provider's data-gap value) with
positive ticks at t = 1. -/
def c3Input : DayInput :=
  { atmStrike := some 100
    cePrice := 0
    pePrice := 0
    entryTime := 0
    ceSeries := [⟨5, 1⟩]
    peSeries := [⟨5, 1⟩]
    adjCutoff := 0 }

/-- Day on which PE exits alone at t = 1 (individual stop-loss), CE exits
at t = 2 where the PE series has no tick: the adjustment slot is consumed
at t = 2 but no pair can be opened. -/
def c4Input : DayInput :=
  { atmStrike := some 100
    cePrice := 100
    pePrice := 100
    entryTime := 0
    ceSeries := [⟨120, 1⟩, ⟨74, 2⟩]
    peSeries := [⟨74, 1⟩]
    adjCutoff := 10 }

/-- Day on which both legs exit at t = 1 and an adjustment pair opens at
t = 1 and is force-closed at the last tick t = 2. -/
def c4wInput : DayInput :=
  { atmStrike := some 100
    cePrice := 100
    pePrice := 100
    entryTime := 0
    ceSeries := [⟨60, 1⟩, ⟨60, 2⟩]
    peSeries := [⟨60, 1⟩, ⟨60, 2⟩]
    adjCutoff := 10 }

/-- Day with an available strike but empty tick series for both legs. -/
def c6Input : DayInput :=
  { atmStrike := some 100
    cePrice := 100
    pePrice := 100
    entryTime := 0
    ceSeries := []
    peSeries := []
    adjCutoff := 10 }

/-- Day with no ATM strike available. -/
def noStrikeInput : DayInput :=
  { atmStrike := none
    cePrice := 0
    pePrice := 0
    entryTime := 0
    ceSeries := []
    peSeries := []
    adjCutoff := 10 }

/-! Constructor-case equations for the pattern-matching helpers, used to
evaluate the simulator symbolically and on concrete inputs. -/

@[simp] theorem jsMul100_fin (q : ℚ) : jsMul100 (.fin q) = .fin (q * 100) := rfl

@[simp] theorem jsMul100_posInf : jsMul100 .posInf = .posInf := rfl

@[simp] theorem jsMul100_negInf : jsMul100 .negInf = .negInf := rfl

@[simp] theorem jsMul100_nan : jsMul100 .nan = .nan := rfl

@[simp] theorem jsGe_fin (q c : ℚ) : (JsNum.fin q).jsGe c = decide (c ≤ q) := rfl

@[simp] theorem jsGe_posInf (c : ℚ) : JsNum.posInf.jsGe c = true := rfl

@[simp] theorem jsGe_negInf (c : ℚ) : JsNum.negInf.jsGe c = false := rfl

@[simp] theorem jsGe_nan (c : ℚ) : JsNum.nan.jsGe c = false := rfl

@[simp] theorem jsLe_fin (q c : ℚ) : (JsNum.fin q).jsLe c = decide (q ≤ c) := rfl

@[simp] theorem jsLe_posInf (c : ℚ) : JsNum.posInf.jsLe c = false := rfl

@[simp] theorem jsLe_negInf (c : ℚ) : JsNum.negInf.jsLe c = true := rfl

@[simp] theorem jsLe_nan (c : ℚ) : JsNum.nan.jsLe c = false := rfl

@[simp] theorem closeGot_some (t : ℕ) (r : ExitReason) (i : ℕ) (d : OptionData)
    (ps : List Position) (p : Position) :
    closeGot t r i d ps (some p) = ps.set i (exitPosition p d.ltp t r) := rfl

@[simp] theorem closeGot_none (t : ℕ) (r : ExitReason) (i : ℕ) (d : OptionData)
    (ps : List Position) : closeGot t r i d ps none = ps := rfl

@[simp] theorem closeAt_some_some (t : ℕ) (r : ExitReason) (i : ℕ) (d : OptionData)
    (ps : List Position) :
    closeAt t r (some i) (some d) ps = closeGot t r i d ps (ps.get? i) := rfl

@[simp] theorem closeAt_none_left (t : ℕ) (r : ExitReason) (dat : Option OptionData)
    (ps : List Position) : closeAt t r none dat ps = ps := by
  cases dat
  all_goals rfl

@[simp] theorem closeAt_none_right (t : ℕ) (r : ExitReason) (idx : Option ℕ)
    (ps : List Position) : closeAt t r idx none ps = ps := by
  cases idx
  all_goals rfl

@[simp] theorem indivFire_some_some (sl : ℚ) (cp : Position) (d : OptionData) :
    indivFire sl (some cp) (some d) = (jsPct cp.entryPrice d.ltp).jsLe (-sl) := rfl

@[simp] theorem indivFire_none_left (sl : ℚ) (dat : Option OptionData) :
    indivFire sl none dat = false := by
  cases dat
  all_goals rfl

@[simp] theorem indivFire_none_right (sl : ℚ) (cp : Option Position) :
    indivFire sl cp none = false := by
  cases cp
  all_goals rfl

@[simp] theorem pushPair_some_some (atm : ℚ) (t : ℕ) (ps : List Position)
    (cd pd : OptionData) :
    pushPair atm t ps (some cd) (some pd) =
      ps ++ [mkPosition .CE cd.ltp t atm, mkPosition .PE pd.ltp t atm] := rfl

@[simp] theorem pushPair_none_left (atm : ℚ) (t : ℕ) (ps : List Position)
    (pd : Option OptionData) : pushPair atm t ps none pd = ps := by
  cases pd
  all_goals rfl

@[simp] theorem pushPair_none_right (atm : ℚ) (t : ℕ) (ps : List Position)
    (cd : Option OptionData) : pushPair atm t ps cd none = ps := by
  cases cd
  all_goals rfl

@[simp] theorem eodFix_none (p : Position) : eodFix p none = p := rfl

@[simp] theorem eodFix_some (p : Position) (d : OptionData) :
    eodFix p (some d) = exitPosition p d.ltp d.received_at .EOD := rfl

@[simp] theorem pnlCons_some (lot : ℚ) (p : Position) (rest : List Position × ℚ) (ex : ℚ) :
    pnlCons lot p rest (some ex) =
      ({ p with pnl := some ((ex - p.entryPrice) * lot) } :: rest.1,
        (ex - p.entryPrice) * lot + rest.2) := rfl

@[simp] theorem pnlCons_none (lot : ℚ) (p : Position) (rest : List Position × ℚ) :
    pnlCons lot p rest none = (p :: rest.1, rest.2) := rfl

@[simp] theorem dayFromStrike_none (cfg : SimConfig) (inp : DayInput) :
    dayFromStrike cfg inp none =
      { atmStrike := 0
        positions := []
        totalPnl := 0
        madeAdjustment := false
        dayPnlPercent := .fin 0 } := rfl

@[simp] theorem dayFromStrike_some (cfg : SimConfig) (inp : DayInput) (strike : ℚ) :
    dayFromStrike cfg inp (some strike) =
      (let st := processOptionPrices cfg inp.adjCutoff strike inp.ceSeries inp.peSeries
        [mkPosition .CE inp.cePrice inp.entryTime strike,
         mkPosition .PE inp.pePrice inp.entryTime strike]
      let res := calculateDayPnL cfg.lotSize st.positions
      { atmStrike := strike
        positions := res.1
        totalPnl := res.2
        madeAdjustment := st.madeAdjustment
        dayPnlPercent := jsMul100 (jsDiv res.2 ((inp.cePrice + inp.pePrice) * cfg.lotSize)) }) := rfl

/-! Helper lemmas about the exit machinery. -/

theorem closeGot_length (t : ℕ) (r : ExitReason) (i : ℕ) (d : OptionData)
    (ps : List Position) (po : Option Position) :
    (closeGot t r i d ps po).length = ps.length := by
  cases po
  all_goals simp [closeGot, List.length_set]

theorem closeAt_length (t : ℕ) (r : ExitReason) (idx : Option ℕ) (dat : Option OptionData)
    (ps : List Position) : (closeAt t r idx dat ps).length = ps.length := by
  cases idx
  all_goals cases dat
  all_goals simp [closeAt, closeGot_length]

theorem exitsPhase_length (cfg : SimConfig) (ceData peData : Option OptionData) (t : ℕ)
    (ps : List Position) : (exitsPhase cfg ceData peData t ps).length = ps.length := by
  simp only [exitsPhase]
  repeat' split
  all_goals simp [closeAt_length]

theorem pushPair_length (atm : ℚ) (t : ℕ) (ps : List Position)
    (ceData peData : Option OptionData) :
    (pushPair atm t ps ceData peData).length = ps.length ∨
    (pushPair atm t ps ceData peData).length = ps.length + 2 := by
  cases ceData
  all_goals cases peData
  all_goals simp [pushPair]

theorem eodClose_length (ceTS peTS : List OptionData) (ps : List Position) :
    (eodClose ceTS peTS ps).length = ps.length := by
  simp [eodClose]

theorem calculateDayPnL_length (lot : ℚ) (ps : List Position) :
    (calculateDayPnL lot ps).1.length = ps.length := by
  induction ps with
  | nil => rfl
  | cons p rest ih =>
    cases hp : p.exitPrice
    all_goals simp [calculateDayPnL, pnlCons, hp, ih]

/-- Size invariant of the event loop: the position list has two or four
elements, and it still has two as long as no adjustment slot was consumed
and as long as madeAdjustment is unset. -/
def sizeInv (st : LoopState) : Prop :=
  (st.positions.length = 2 ∨ st.positions.length = 4)
  ∧ (st.adjustmentDone = false → st.positions.length = 2)
  ∧ (st.madeAdjustment = false → st.positions.length = 2)

theorem adjustPhase_sizeInv (atm : ℚ) (adjCutoff : ℕ) (ceData peData : Option OptionData)
    (t : ℕ) (made adjDone : Bool) (ps : List Position)
    (h2 : ps.length = 2 ∨ ps.length = 4)
    (hA : adjDone = false → ps.length = 2)
    (hM : made = false → ps.length = 2) :
    sizeInv (adjustPhase atm adjCutoff ceData peData t made adjDone ps) := by
  unfold adjustPhase sizeInv
  split
  · rename_i hcond
    have hps2 : ps.length = 2 := hA hcond.1
    split
    · refine ⟨?_, ?_, ?_⟩
      · rcases pushPair_length atm t ps ceData peData with h | h
        · exact Or.inl (by simp [h, hps2])
        · exact Or.inr (by simp [h, hps2])
      · intro h
        simp at h
      · intro h
        simp at h
    · exact ⟨h2, hA, hM⟩
  · exact ⟨h2, hA, hM⟩

theorem stepEvent_sizeInv (cfg : SimConfig) (adjCutoff : ℕ) (atm : ℚ)
    (ceTS peTS : List OptionData) (t : ℕ) (st : LoopState) (h : sizeInv st) :
    sizeInv (stepEvent cfg adjCutoff atm ceTS peTS t st) := by
  obtain ⟨h2, hA, hM⟩ := h
  unfold stepEvent
  apply adjustPhase_sizeInv
  · rw [exitsPhase_length]
    exact h2
  · intro h
    rw [exitsPhase_length]
    exact hA h
  · intro h
    rw [exitsPhase_length]
    exact hM h

theorem processLoop_sizeInv (cfg : SimConfig) (adjCutoff : ℕ) (atm : ℚ)
    (ceTS peTS : List OptionData) (times : List ℕ) (st : LoopState) (h : sizeInv st) :
    sizeInv (processLoop cfg adjCutoff atm ceTS peTS times st) := by
  induction times generalizing st with
  | nil => exact h
  | cons t rest ih =>
    unfold processLoop
    split
    · exact h
    · exact ih _ (stepEvent_sizeInv cfg adjCutoff atm ceTS peTS t st h)

theorem processOptionPrices_sizeInv (cfg : SimConfig) (adjCutoff : ℕ) (atm : ℚ)
    (ceTS peTS : List OptionData) (p1 p2 : Position) :
    ((processOptionPrices cfg adjCutoff atm ceTS peTS [p1, p2]).positions.length = 2 ∨
      (processOptionPrices cfg adjCutoff atm ceTS peTS [p1, p2]).positions.length = 4)
    ∧ ((processOptionPrices cfg adjCutoff atm ceTS peTS [p1, p2]).madeAdjustment = false →
      (processOptionPrices cfg adjCutoff atm ceTS peTS [p1, p2]).positions.length = 2) := by
  have hinit : sizeInv
      { positions := [p1, p2], madeAdjustment := false, adjustmentDone := false } :=
    ⟨Or.inl rfl, fun _ => rfl, fun _ => rfl⟩
  have h := processLoop_sizeInv cfg adjCutoff atm ceTS peTS (sortedTimes ceTS peTS) _ hinit
  obtain ⟨h2, _, hM⟩ := h
  unfold processOptionPrices
  constructor
  · simpa [eodClose_length] using h2
  · intro hm
    simp only [eodClose_length]
    exact hM hm

/-- C7: for every configuration and every pair of tick series, starting
from the two entry positions the simulated position list ends with exactly
two or exactly four positions: at most one adjustment ever appends a pair,
and a third pair is never appended. -/
theorem c7_at_most_one_adjustment (cfg : SimConfig) (adjCutoff : ℕ) (atm : ℚ)
    (ceTS peTS : List OptionData) (p1 p2 : Position) :
    (processOptionPrices cfg adjCutoff atm ceTS peTS [p1, p2]).positions.length = 2 ∨
    (processOptionPrices cfg adjCutoff atm ceTS peTS [p1, p2]).positions.length = 4 :=
  (processOptionPrices_sizeInv cfg adjCutoff atm ceTS peTS p1 p2).1

/-- C4 (amended): whenever a re-entry pair was actually opened (the final
position list has more than the two original positions), madeAdjustment is
true; the converse fails, because the flag is also set when the adjustment
slot is consumed while a leg tick is missing at the qualifying event. -/
theorem c4_adjustment_flag (cfg : SimConfig) (inp : DayInput)
    (h : 2 < (processTradingDay cfg inp).positions.length) :
    (processTradingDay cfg inp).madeAdjustment = true := by
  cases hA : inp.atmStrike with
  | none =>
    simp [processTradingDay, dayFromStrike, hA] at h
  | some strike =>
    simp only [processTradingDay, dayFromStrike, hA] at h ⊢
    rw [calculateDayPnL_length] at h
    set st := processOptionPrices cfg inp.adjCutoff strike inp.ceSeries inp.peSeries
      [mkPosition .CE inp.cePrice inp.entryTime strike,
       mkPosition .PE inp.pePrice inp.entryTime strike] with hst
    cases hm : st.madeAdjustment with
    | false =>
      have hlen := (processOptionPrices_sizeInv cfg inp.adjCutoff strike inp.ceSeries
        inp.peSeries (mkPosition .CE inp.cePrice inp.entryTime strike)
        (mkPosition .PE inp.pePrice inp.entryTime strike)).2
      rw [← hst] at hlen
      have h2 := hlen hm
      omega
    | true => rfl


/-! Infrastructure for the exit-reason invariant (claim C8). -/

/-- Exit-reason invariant: every inactive position has a recorded reason. -/
def reasonInv (ps : List Position) : Prop :=
  ∀ p ∈ ps, p.isActive = false → (p.exitReason).isSome = true

theorem closeGot_reasonInv (t : ℕ) (r : ExitReason) (i : ℕ) (d : OptionData)
    (ps : List Position) (po : Option Position) (h : reasonInv ps) :
    reasonInv (closeGot t r i d ps po) := by
  cases po with
  | none => exact h
  | some p =>
    intro q hq hact
    rcases List.mem_or_eq_of_mem_set hq with h1 | h2
    · exact h q h1 hact
    · subst h2
      rfl

theorem closeAt_reasonInv (t : ℕ) (r : ExitReason) (idx : Option ℕ)
    (dat : Option OptionData) (ps : List Position) (h : reasonInv ps) :
    reasonInv (closeAt t r idx dat ps) := by
  cases idx with
  | none => simpa [closeAt_none_left] using h
  | some i =>
    cases dat with
    | none => simpa [closeAt_none_right] using h
    | some d => exact closeGot_reasonInv t r i d ps _ h

theorem exitsPhase_reasonInv (cfg : SimConfig) (ceData peData : Option OptionData)
    (t : ℕ) (ps : List Position) (h : reasonInv ps) :
    reasonInv (exitsPhase cfg ceData peData t ps) := by
  simp only [exitsPhase]
  repeat' split
  all_goals repeat' apply closeAt_reasonInv
  all_goals exact h

theorem pushPair_reasonInv (atm : ℚ) (t : ℕ) (ps : List Position)
    (ceData peData : Option OptionData) (h : reasonInv ps) :
    reasonInv (pushPair atm t ps ceData peData) := by
  cases ceData with
  | none => simpa using h
  | some cd =>
    cases peData with
    | none => simpa using h
    | some pd =>
      intro q hq hact
      rw [pushPair_some_some] at hq
      rcases List.mem_append.1 hq with h1 | h2
      · exact h q h1 hact
      · simp only [List.mem_cons, List.not_mem_nil, or_false] at h2
        rcases h2 with rfl | rfl
        · simp [mkPosition] at hact
        · simp [mkPosition] at hact

theorem adjustPhase_reasonInv (atm : ℚ) (adjCutoff : ℕ) (ceData peData : Option OptionData)
    (t : ℕ) (made adjDone : Bool) (ps : List Position) (h : reasonInv ps) :
    reasonInv (adjustPhase atm adjCutoff ceData peData t made adjDone ps).positions := by
  unfold adjustPhase
  repeat' split
  all_goals first
    | exact pushPair_reasonInv atm t ps ceData peData h
    | exact h

theorem stepEvent_reasonInv (cfg : SimConfig) (adjCutoff : ℕ) (atm : ℚ)
    (ceTS peTS : List OptionData) (t : ℕ) (st : LoopState)
    (h : reasonInv st.positions) :
    reasonInv (stepEvent cfg adjCutoff atm ceTS peTS t st).positions := by
  unfold stepEvent
  exact adjustPhase_reasonInv _ _ _ _ _ _ _ _
    (exitsPhase_reasonInv cfg _ _ t st.positions h)

theorem processLoop_reasonInv (cfg : SimConfig) (adjCutoff : ℕ) (atm : ℚ)
    (ceTS peTS : List OptionData) (times : List ℕ) (st : LoopState)
    (h : reasonInv st.positions) :
    reasonInv (processLoop cfg adjCutoff atm ceTS peTS times st).positions := by
  induction times generalizing st with
  | nil => exact h
  | cons t rest ih =>
    unfold processLoop
    split
    · exact h
    · exact ih _ (stepEvent_reasonInv cfg adjCutoff atm ceTS peTS t st h)

theorem lastTick_eq_none : ∀ ts : List OptionData, lastTick ts = none ↔ ts = []
  | [] => by simp [lastTick]
  | [d] => by simp [lastTick]
  | a :: d :: ds => by
    rw [lastTick]
    simp [lastTick_eq_none (d :: ds)]

/-- C8: after a full simulation starting from the two active entry
positions, every position whose leg has a non-empty tick series is
inactive with a recorded exit reason; a position whose leg's series is
empty is merely left as it is (unresolved rather than an error). -/
theorem c8_all_positions_resolved (cfg : SimConfig) (adjCutoff : ℕ) (atm : ℚ)
    (ceTS peTS : List OptionData) (ceP peP : ℚ) (e : ℕ) :
    ∀ p ∈ (processOptionPrices cfg adjCutoff atm ceTS peTS
        [mkPosition .CE ceP e atm, mkPosition .PE peP e atm]).positions,
      (if p.type = OptionType.CE then ceTS else peTS) ≠ [] →
      p.isActive = false ∧ (p.exitReason).isSome = true := by
  have hinit : reasonInv [mkPosition .CE ceP e atm, mkPosition .PE peP e atm] := by
    intro q hq hact
    simp only [List.mem_cons, List.not_mem_nil, or_false] at hq
    rcases hq with rfl | rfl
    · simp [mkPosition] at hact
    · simp [mkPosition] at hact
  have hinv := processLoop_reasonInv cfg adjCutoff atm ceTS peTS
    (sortedTimes ceTS peTS)
    { positions := [mkPosition .CE ceP e atm, mkPosition .PE peP e atm]
      madeAdjustment := false
      adjustmentDone := false } hinit
  intro p hp hne
  unfold processOptionPrices at hp
  simp only [eodClose, List.mem_map] at hp
  obtain ⟨q, hq, hpq⟩ := hp
  cases hact : q.isActive with
  | false =>
    rw [hact] at hpq
    simp only [Bool.false_eq_true, if_false] at hpq
    rw [← hpq]
    exact ⟨hact, hinv q hq hact⟩
  | true =>
    rw [hact] at hpq
    simp only [if_true] at hpq
    cases hlast : lastTick (if q.type = OptionType.CE then ceTS else peTS) with
    | none =>
      rw [hlast] at hpq
      rw [eodFix_none] at hpq
      rw [← hpq] at hne
      exact absurd ((lastTick_eq_none _).1 hlast) hne
    | some d =>
      rw [hlast] at hpq
      rw [eodFix_some] at hpq
      rw [← hpq]
      exact ⟨rfl, rfl⟩

/-! Infrastructure for the P&L aggregation (claim C9). -/

theorem calculateDayPnL_sum (lot : ℚ) (ps : List Position) :
    (calculateDayPnL lot ps).2 =
      (((calculateDayPnL lot ps).1).filterMap
        (fun p => p.exitPrice.map (fun ex => (ex - p.entryPrice) * lot))).sum := by
  induction ps with
  | nil => simp [calculateDayPnL]
  | cons p rest ih =>
    cases hp : p.exitPrice with
    | none =>
      simp [calculateDayPnL, hp, ih]
    | some ex =>
      simp [calculateDayPnL, hp, ih]

/-- C9: the day's totalPnl is the sum of (exitPrice - entryPrice) * lotSize
over exactly the positions with a resolved exit price, and dayPnlPercent is
totalPnl divided by the original combined entry premium times lot size,
times 100 - the denominator uses the original entry prices of the day, not
the adjustment pair's. -/
theorem c9_day_pnl (cfg : SimConfig) (inp : DayInput) (strike : ℚ)
    (hA : inp.atmStrike = some strike) :
    (processTradingDay cfg inp).totalPnl =
      ((processTradingDay cfg inp).positions.filterMap
        (fun p => p.exitPrice.map (fun ex => (ex - p.entryPrice) * cfg.lotSize))).sum
    ∧ (processTradingDay cfg inp).dayPnlPercent =
      jsMul100 (jsDiv (processTradingDay cfg inp).totalPnl
        ((inp.cePrice + inp.pePrice) * cfg.lotSize)) := by
  refine ⟨?_, ?_⟩
  · simp only [processTradingDay, hA, dayFromStrike_some]
    exact calculateDayPnL_sum cfg.lotSize _
  · simp only [processTradingDay, hA, dayFromStrike_some]

/-! Infrastructure for the runner accounting (claim C10). -/

theorem runFold_spec (cfg : SimConfig) (inputs : List DayInput) :
    ∀ acc : BacktestResult,
      acc.winningDays + acc.losingDays = acc.days.length →
      acc.totalPnl = (acc.days.map TradeDay.totalPnl).sum →
      ((inputs.foldl (runStep cfg) acc).winningDays +
          (inputs.foldl (runStep cfg) acc).losingDays =
        (inputs.foldl (runStep cfg) acc).days.length
      ∧ (inputs.foldl (runStep cfg) acc).totalPnl =
        ((inputs.foldl (runStep cfg) acc).days.map TradeDay.totalPnl).sum) := by
  induction inputs with
  | nil => exact fun acc h1 h2 => ⟨h1, h2⟩
  | cons i rest ih =>
    intro acc h1 h2
    simp only [List.foldl_cons]
    apply ih
    · simp only [runStep]
      by_cases hc : 0 ≤ (processTradingDay cfg i).totalPnl
      · simp only [if_pos hc, List.length_append, List.length_cons, List.length_nil]
        omega
      · simp only [if_neg hc, List.length_append, List.length_cons, List.length_nil]
        omega
    · simp only [runStep]
      simp [List.map_append, h2]

/-- C10: after the runner completes, winning and losing day counts add up
to the number of processed days (each day is counted in exactly one bucket,
with totalPnl at least zero counting as winning), and the aggregate
totalPnl is the sum of the per-day totals. -/
theorem c10_runner_accounting (cfg : SimConfig) (inputs : List DayInput) :
    (runBacktest cfg inputs).winningDays + (runBacktest cfg inputs).losingDays =
      (runBacktest cfg inputs).days.length
    ∧ (runBacktest cfg inputs).totalPnl =
      ((runBacktest cfg inputs).days.map TradeDay.totalPnl).sum := by
  unfold runBacktest
  exact runFold_spec cfg inputs emptyResult rfl rfl


/-! Claims C1 to C6: counterexamples, amended statements and witnesses. -/

set_option maxHeartbeats 1000000

/-- C1 (counterexample): at the single event t = 1 of c1Input the combined
stop-loss condition and the CE individual stop-loss condition are both
true, yet the CE leg's final exitReason is SL, not the combined reason
TOTAL_PL_SL: the individual check does not skip the already-closed leg and
overwrites its exit data. -/
theorem c1_counterexample :
    (jsPct (100 + 100) (70 + 100)).jsLe (-defaultCfg.pnlSlPercent) = true ∧
    (jsPct 100 70).jsLe (-defaultCfg.slPercent) = true ∧
    (processTradingDay defaultCfg c1Input).positions.map Position.exitReason =
      [some ExitReason.SL, some ExitReason.TOTAL_PL_SL] := by
  refine ⟨by norm_num [jsPct, jsDiv, defaultCfg], by norm_num [jsPct, jsDiv, defaultCfg], ?_⟩
  norm_num +decide [processTradingDay, processOptionPrices, sortedTimes,
    insertTime, processLoop, hasActive, stepEvent, exitsPhase, adjustPhase,
    tickAt, firstActiveIdx, eodClose, lastTick, calculateDayPnL,
    exitPosition, mkPosition, jsPct, jsDiv, defaultCfg, c1Input]

/-- C1 (amended): when at one event the combined stop-loss fires (and the
combined target does not) and the CE individual stop-loss condition also
holds, the CE leg is closed by the combined check and then closed again by
the individual check of the same event: its final exitReason is SL, at the
same tick price and the same timestamp.  The combined reason does not take
precedence and the position is mutated twice. -/
theorem c1_individual_overwrites (cfg : SimConfig) (ceE peE ceL peL atm : ℚ) (e t : ℕ)
    (hT : (jsPct (ceE + peE) (ceL + peL)).jsGe cfg.pnlTargetPercent = false)
    (hS : (jsPct (ceE + peE) (ceL + peL)).jsLe (-cfg.pnlSlPercent) = true)
    (hI : (jsPct ceE ceL).jsLe (-cfg.slPercent) = true) :
    (exitsPhase cfg (some ⟨ceL, t⟩) (some ⟨peL, t⟩) t
        [mkPosition .CE ceE e atm, mkPosition .PE peE e atm]).head? =
      some { type := .CE, entryPrice := ceE, entryTime := e, isActive := false,
             strikePrice := atm, exitPrice := some ceL, exitTime := some t,
             exitReason := some ExitReason.SL, pnl := none } := by
  norm_num +decide [exitsPhase, firstActiveIdx, mkPosition, exitPosition, hT, hS, hI]
  split
  all_goals norm_num

/-- C1 (witness): concrete instantiation of c1_individual_overwrites. -/
theorem c1_witness :
    (jsPct (100 + 100) (70 + 100)).jsGe defaultCfg.pnlTargetPercent = false ∧
    (jsPct (100 + 100) (70 + 100)).jsLe (-defaultCfg.pnlSlPercent) = true ∧
    (jsPct 100 70).jsLe (-defaultCfg.slPercent) = true ∧
    (exitsPhase defaultCfg (some ⟨70, 1⟩) (some ⟨100, 1⟩) 1
        [mkPosition .CE 100 0 100, mkPosition .PE 100 0 100]).head? =
      some { type := .CE, entryPrice := 100, entryTime := 0, isActive := false,
             strikePrice := 100, exitPrice := some 70, exitTime := some 1,
             exitReason := some ExitReason.SL, pnl := none } :=
  ⟨by norm_num [jsPct, jsDiv, defaultCfg], by norm_num [jsPct, jsDiv, defaultCfg],
   by norm_num [jsPct, jsDiv, defaultCfg],
   c1_individual_overwrites defaultCfg 100 100 70 100 100 0 1
     (by norm_num [jsPct, jsDiv, defaultCfg])
     (by norm_num [jsPct, jsDiv, defaultCfg])
     (by norm_num [jsPct, jsDiv, defaultCfg])⟩

/-- C2: on c2Input an adjustment pair is opened at t = 1 (entryTime 1) and
is closed by the stop-loss machinery at t = 2 with reason SL, although the
last available tick of both series is at t = 3: the code does not exempt
adjustment positions from the individual/combined exit rules, contradicting
the documented rule that adjustments hold to end-of-day. -/
theorem c2_adjustment_not_exempt :
    (processTradingDay defaultCfg c2Input).madeAdjustment = true ∧
    (processTradingDay defaultCfg c2Input).positions.map
      (fun p => (p.entryTime, p.exitReason, p.exitTime)) =
      [(0, some ExitReason.SL, some 1), (0, some ExitReason.SL, some 1),
       (1, some ExitReason.SL, some 2), (1, some ExitReason.SL, some 2)] ∧
    lastTick c2Input.ceSeries = some ⟨40, 3⟩ := by
  refine ⟨?_, ?_, by norm_num [c2Input, lastTick]⟩
  all_goals norm_num +decide [processTradingDay, processOptionPrices, sortedTimes,
    insertTime, processLoop, hasActive, stepEvent, exitsPhase, adjustPhase,
    tickAt, firstActiveIdx, eodClose, lastTick, calculateDayPnL,
    exitPosition, mkPosition, jsPct, jsDiv, defaultCfg, c2Input]

/-- C3 (counterexample): with both entry prices 0 (a provider data gap) and
positive ticks, the division by zero is not guarded: the combined change is
+Infinity, the combined target comparison is true, and both legs are closed
with reason TOTAL_PL_TARGET at the tick price. -/
theorem c3_counterexample :
    c3Input.cePrice = 0 ∧ c3Input.pePrice = 0 ∧
    (processTradingDay defaultCfg c3Input).positions.map
      (fun p => (p.exitReason, p.exitPrice)) =
      [(some ExitReason.TOTAL_PL_TARGET, some 5),
       (some ExitReason.TOTAL_PL_TARGET, some 5)] := by
  refine ⟨rfl, rfl, ?_⟩
  norm_num +decide [processTradingDay, processOptionPrices, sortedTimes,
    insertTime, processLoop, hasActive, stepEvent, exitsPhase, adjustPhase,
    tickAt, firstActiveIdx, eodClose, lastTick, calculateDayPnL,
    exitPosition, mkPosition, jsPct, jsDiv, defaultCfg, c3Input]

/-- C3 (amended): with a zero entry price the individual stop-loss can
never fire on a non-negative tick (the percentage change is +Infinity or
NaN, never below a threshold), but the combined checks are not guarded:
a zero combined entry with a positive current total makes the combined
change +Infinity, which satisfies the target comparison for every
threshold and closes positions. -/
theorem c3_unguarded_zero_entry :
    (∀ c ltp : ℚ, 0 ≤ ltp → (jsPct 0 ltp).jsLe c = false)
    ∧ (∀ c cur : ℚ, 0 < cur → (jsPct 0 cur).jsGe c = true) := by
  constructor
  · intro c ltp h
    rcases lt_or_eq_of_le h with h' | h'
    · simp [jsPct, jsDiv, sub_zero, h']
    · simp [jsPct, jsDiv, ← h']
  · intro c cur h
    simp [jsPct, jsDiv, sub_zero, h]

/-- C3 (witness): concrete instantiation of c3_unguarded_zero_entry. -/
theorem c3_witness :
    (jsPct 0 5).jsLe (-25) = false ∧ (jsPct 0 10).jsGe 25 = true :=
  ⟨c3_unguarded_zero_entry.1 (-25) 5 (by norm_num),
   c3_unguarded_zero_entry.2 25 10 (by norm_num)⟩

/-- C4 (counterexample): on c4Input both legs are inactive at t = 2 before
the cutoff, so madeAdjustment is set, but the PE series has no tick at
t = 2 and no pair is opened: madeAdjustment is true while the position list
still has exactly the two original legs. -/
theorem c4_counterexample :
    (processTradingDay defaultCfg c4Input).madeAdjustment = true ∧
    (processTradingDay defaultCfg c4Input).positions.length = 2 := by
  norm_num +decide [processTradingDay, processOptionPrices, sortedTimes,
    insertTime, processLoop, hasActive, stepEvent, exitsPhase, adjustPhase,
    tickAt, firstActiveIdx, eodClose, lastTick, calculateDayPnL,
    exitPosition, mkPosition, jsPct, jsDiv, defaultCfg, c4Input]

/-- C4 (witness): a day on which the pair is actually opened, instantiating
c4_adjustment_flag. -/
theorem c4_witness :
    2 < (processTradingDay defaultCfg c4wInput).positions.length ∧
    (processTradingDay defaultCfg c4wInput).madeAdjustment = true :=
  ⟨by norm_num +decide [processTradingDay, processOptionPrices, sortedTimes,
    insertTime, processLoop, hasActive, stepEvent, exitsPhase, adjustPhase,
    tickAt, firstActiveIdx, eodClose, lastTick, calculateDayPnL,
    exitPosition, mkPosition, jsPct, jsDiv, defaultCfg, c4wInput],
   c4_adjustment_flag defaultCfg c4wInput
     (by norm_num +decide [processTradingDay, processOptionPrices, sortedTimes,
    insertTime, processLoop, hasActive, stepEvent, exitsPhase, adjustPhase,
    tickAt, firstActiveIdx, eodClose, lastTick, calculateDayPnL,
    exitPosition, mkPosition, jsPct, jsDiv, defaultCfg, c4wInput])⟩

/-- C5 (counterexample): on an empty date list the runner silently returns
NaN for winRate (0 / 0 * 100) and averageDailyPnl (0 / 0); no InvalidInput
condition exists in the code. -/
theorem c5_counterexample :
    (runBacktest defaultCfg []).winRate = JsNum.nan ∧
    (runBacktest defaultCfg []).averageDailyPnl = JsNum.nan := by
  norm_num [runBacktest, emptyResult, jsDiv]

/-- C5 (amended): for every configuration, the empty-date-list run returns
normally (no crash, no InvalidInput signal) with an empty day list, zero
totals and NaN for both derived metrics. -/
theorem c5_empty_run (cfg : SimConfig) :
    runBacktest cfg [] =
      { days := [], totalPnl := 0, winningDays := 0, losingDays := 0,
        winRate := JsNum.nan, averageDailyPnl := JsNum.nan } := by
  norm_num [runBacktest, emptyResult, jsDiv]

/-- C6 (counterexample): a day with an available strike but empty tick
series yields totalPnl 0 but a positions list with the two (unresolved,
still active) entry legs, not an empty list. -/
theorem c6_counterexample :
    (processTradingDay defaultCfg c6Input).totalPnl = 0 ∧
    (processTradingDay defaultCfg c6Input).positions.length = 2 ∧
    (processTradingDay defaultCfg c6Input).positions ≠ [] := by
  norm_num +decide [processTradingDay, processOptionPrices, sortedTimes,
    insertTime, processLoop, hasActive, stepEvent, exitsPhase, adjustPhase,
    tickAt, firstActiveIdx, eodClose, lastTick, calculateDayPnL,
    exitPosition, mkPosition, jsPct, jsDiv, defaultCfg, c6Input]

/-- C6 (amended): a day with no ATM strike yields the empty zero-P&L
TradeDay as a normal result; a day with a strike but empty tick series for
both legs yields totalPnl 0 with the two entry positions created and left
untouched. -/
theorem c6_zero_tick_day :
    (∀ (cfg : SimConfig) (inp : DayInput), inp.atmStrike = none →
      processTradingDay cfg inp =
        { atmStrike := 0, positions := [], totalPnl := 0, madeAdjustment := false,
          dayPnlPercent := .fin 0 })
    ∧ (∀ (cfg : SimConfig) (inp : DayInput) (strike : ℚ), inp.atmStrike = some strike →
        inp.ceSeries = [] → inp.peSeries = [] →
        (processTradingDay cfg inp).totalPnl = 0 ∧
        (processTradingDay cfg inp).positions =
          [mkPosition .CE inp.cePrice inp.entryTime strike,
           mkPosition .PE inp.pePrice inp.entryTime strike]) := by
  constructor
  · intro cfg inp h
    simp [processTradingDay, h]
  · intro cfg inp strike hA hc hp
    simp only [processTradingDay, hA, dayFromStrike_some]
    rw [hc, hp]
    norm_num +decide [processOptionPrices, sortedTimes, processLoop, eodClose,
      lastTick, calculateDayPnL, mkPosition, hasActive]

/-- C6 (witness): concrete instantiations of both parts of
c6_zero_tick_day. -/
theorem c6_zero_tick_witness :
    processTradingDay defaultCfg noStrikeInput =
      { atmStrike := 0, positions := [], totalPnl := 0, madeAdjustment := false,
        dayPnlPercent := .fin 0 } ∧
    ((processTradingDay defaultCfg c6Input).totalPnl = 0 ∧
      (processTradingDay defaultCfg c6Input).positions =
        [mkPosition .CE c6Input.cePrice c6Input.entryTime 100,
         mkPosition .PE c6Input.pePrice c6Input.entryTime 100]) :=
  ⟨c6_zero_tick_day.1 defaultCfg noStrikeInput rfl,
   c6_zero_tick_day.2 defaultCfg c6Input 100 rfl rfl rfl⟩

/-- Concrete closed position used to instantiate the C8 theorem. -/
def c8wPos : Position :=
  { type := .CE, entryPrice := 100, entryTime := 0, isActive := false,
    strikePrice := 100, exitPrice := some 60, exitTime := some 1,
    exitReason := some ExitReason.SL, pnl := none }

/-- C8 (witness): concrete instantiation of c8_all_positions_resolved. -/
theorem c8_witness :
    c8wPos.isActive = false ∧ (c8wPos.exitReason).isSome = true :=
  c8_all_positions_resolved defaultCfg 0 100 [⟨60, 1⟩] [⟨60, 1⟩] 100 100 0 c8wPos
    (by norm_num +decide [processOptionPrices, sortedTimes, insertTime, processLoop,
      hasActive, stepEvent, exitsPhase, adjustPhase, tickAt, firstActiveIdx,
      eodClose, lastTick, exitPosition, mkPosition, jsPct, jsDiv, defaultCfg, c8wPos])
    (by norm_num [c8wPos])

/-- C9 (witness): concrete instantiation of c9_day_pnl on a day with an
adjustment, checking the denominator uses the original entry prices. -/
theorem c9_witness :
    (processTradingDay defaultCfg c4wInput).totalPnl =
      ((processTradingDay defaultCfg c4wInput).positions.filterMap
        (fun p => p.exitPrice.map (fun ex => (ex - p.entryPrice) * defaultCfg.lotSize))).sum
    ∧ (processTradingDay defaultCfg c4wInput).dayPnlPercent =
      jsMul100 (jsDiv (processTradingDay defaultCfg c4wInput).totalPnl
        ((c4wInput.cePrice + c4wInput.pePrice) * defaultCfg.lotSize)) :=
  c9_day_pnl defaultCfg c4wInput 100 rfl

end Trado
